import Mathlib

/-!
Shallow embedding of `main.py` (FastAPI · Firestore → JSON).

The embedded functions are:
  * `to_jsonable` — the value normalizer (lines 53–75 of `main.py`),
  * `doc_to_dict` — document conversion with injected `"id"` (lines 77–80),
  * `fetch_collection` — equality-filtered collection fetch (lines 82–85),
  * `get_campana` / `get_estacion` — the two HTTP endpoints (lines 102–114).

Python `datetime` values are modelled as a naive calendar record plus an
optional zone; the fixed local zone is `America/Santiago` (tzdata rule for
recent years: UTC-3 during DST, which runs from the first Sunday of September
to the first Sunday of April, and UTC-4 otherwise).  `datetime.replace`,
`datetime.astimezone` and `datetime.isoformat` are modelled faithfully for
whole-minute offsets.  Firestore's `DatetimeWithNanoseconds` and `GeoPoint`,
numpy numerics, and a representative unrecognized kind (`bytes`) are separate
constructors of the value type, matching the `isinstance` dispatch order of
the source.
-/

/-- Proleptic-Gregorian leap-year test, as in Python's `calendar.isleap`. -/
def isLeap (y : Nat) : Bool :=
  (y % 4 == 0 && y % 100 != 0) || y % 400 == 0

/-- Number of days in month `m` of year `y` (months are 1-based). -/
def daysInMonth (y m : Nat) : Nat :=
  if m == 2 then (if isLeap y then 29 else 28)
  else if m == 4 || m == 6 || m == 9 || m == 11 then 30
  else 31

/-- Days in the years `1 .. y-1`, as in CPython's `datetime._days_before_year`. -/
def daysBeforeYear (y : Nat) : Nat :=
  let n := y - 1
  365 * n + n / 4 - n / 100 + n / 400

/-- Days in year `y` preceding month `m`. -/
def daysBeforeMonth (y m : Nat) : Nat :=
  (((List.range (m - 1)).map (fun i => daysInMonth y (i + 1))).foldl (· + ·) 0)

/-- Proleptic-Gregorian ordinal of a date, as in Python's `date.toordinal`
(0001-01-01 has ordinal 1). -/
def toOrdinal (y m d : Nat) : Nat :=
  daysBeforeYear y + daysBeforeMonth y m + d

/-- Resolve a 1-based day-of-year to (month, day) by probing the months in
order; the fuel argument is an upper bound on the number of months. -/
def monthAndDayAux (y : Nat) : Nat → Nat → Nat → Nat × Nat
  | 0, m, d => (m, d)
  | fuel + 1, m, d =>
      if d ≤ daysInMonth y m then (m, d)
      else monthAndDayAux y fuel (m + 1) (d - daysInMonth y m)

/-- Inverse of `toOrdinal`, following CPython's `datetime._ord2ymd`
(400/100/4/1-year cycle arithmetic, then month probing). -/
def fromOrdinal (n : Nat) : Nat × Nat × Nat :=
  let n0 := n - 1
  let n400 := n0 / 146097
  let r1 := n0 % 146097
  let n100 := r1 / 36524
  let r2 := r1 % 36524
  let n4 := r2 / 1461
  let r3 := r2 % 1461
  let n1 := r3 / 365
  let r4 := r3 % 365
  let year := n400 * 400 + n100 * 100 + n4 * 4 + n1 + 1
  if n1 == 4 || n100 == 4 then (year - 1, 12, 31)
  else
    let md := monthAndDayAux year 12 1 (r4 + 1)
    (year, md.1, md.2)

/-- Naive part of a Python `datetime`: calendar fields without a zone. -/
structure NaiveDT where
  year : Nat
  month : Nat
  day : Nat
  hour : Nat
  minute : Nat
  second : Nat
  microsecond : Nat
deriving DecidableEq, Repr

/-- Minutes elapsed since 0001-01-01 00:00 (ignoring seconds and below). -/
def toTotalMinutes (dt : NaiveDT) : Nat :=
  (toOrdinal dt.year dt.month dt.day - 1) * 1440 + dt.hour * 60 + dt.minute

/-- Rebuild calendar fields from a minute count, keeping the given
second/microsecond fields (zone offsets are whole minutes, so conversions
never touch them). -/
def fromTotalMinutes (tm sec usec : Nat) : NaiveDT :=
  let ymd := fromOrdinal (tm / 1440 + 1)
  ⟨ymd.1, ymd.2.1, ymd.2.2, (tm % 1440) / 60, tm % 60, sec, usec⟩

/-- Shift a datetime by a (possibly negative) number of minutes, as Python's
timedelta arithmetic does. -/
def addMinutes (dt : NaiveDT) (delta : Int) : NaiveDT :=
  fromTotalMinutes ((toTotalMinutes dt : Int) + delta).toNat dt.second dt.microsecond

/-- Day of month (1-7) of the first Sunday of month `m` of year `y`.
Ordinal 1 (0001-01-01) is a Monday, so Sundays are the ordinals divisible
by 7. -/
def firstSundayOfMonth (y m : Nat) : Nat :=
  let w := toOrdinal y m 1 % 7
  (7 - w) % 7 + 1

/-- America/Santiago daylight-saving test on a local wall-clock time: DST
runs from the first Sunday of September to the first Sunday of April. -/
def santiagoIsDSTlocal (dt : NaiveDT) : Bool :=
  let fsApr := firstSundayOfMonth dt.year 4
  let fsSep := firstSundayOfMonth dt.year 9
  (dt.month < 4 || (dt.month == 4 && dt.day < fsApr))
    || (dt.month > 9 || (dt.month == 9 && dt.day ≥ fsSep))

/-- Time zones occurring in the embedding: UTC (what Firestore timestamps
carry) and the fixed local zone `ZoneInfo("America/Santiago")`. -/
inductive Zone where
  | utc
  | santiago
deriving DecidableEq, Repr

/-- Offset returned by `tzinfo.utcoffset`, in minutes, as a function of the
local wall time. -/
def zoneUtcOffsetMin : Zone → NaiveDT → Int
  | .utc, _ => 0
  | .santiago, dt => if santiagoIsDSTlocal dt then -180 else -240

/-- America/Santiago offset (minutes) as a function of a UTC instant, used by
`ZoneInfo.fromutc`: the DST period starts at the first Sunday of September
04:00 UTC and ends at the first Sunday of April 03:00 UTC. -/
def santiagoOffsetFromUTC (u : NaiveDT) : Int :=
  let fsApr := firstSundayOfMonth u.year 4
  let fsSep := firstSundayOfMonth u.year 9
  let afterSepStart :=
    u.month > 9 || (u.month == 9 && (u.day > fsSep || (u.day == fsSep && u.hour ≥ 4)))
  let beforeAprEnd :=
    u.month < 4 || (u.month == 4 && (u.day < fsApr || (u.day == fsApr && u.hour < 3)))
  if afterSepStart || beforeAprEnd then -180 else -240

/-- Python's `datetime.astimezone(LOCAL_TZ)` on an aware datetime with zone
`z`: the identity when `z` is already the (cached, hence identical)
`ZoneInfo("America/Santiago")` object; otherwise subtract the source offset to
reach UTC and apply `ZoneInfo.fromutc`. -/
def astimezoneSantiago (dt : NaiveDT) (z : Zone) : NaiveDT :=
  if z = .santiago then dt
  else
    let u := addMinutes dt (-(zoneUtcOffsetMin z dt))
    addMinutes u (santiagoOffsetFromUTC u)

/-- Decimal rendering of `n`, left-padded with zeros to width `w`. -/
def padZeros (w n : Nat) : String :=
  let s := toString n
  ⟨List.replicate (w - s.length) '0' ++ s.data⟩

/-- Rendering of a whole-minute UTC offset as `±HH:MM`, as `isoformat` emits
for an aware datetime. -/
def offsetToString (off : Int) : String :=
  (if off < 0 then "-" else "+") ++ padZeros 2 (off.natAbs / 60) ++ ":"
    ++ padZeros 2 (off.natAbs % 60)

/-- Offset-free part of Python's `datetime.isoformat()`:
`YYYY-MM-DDTHH:MM:SS`, with `.ffffff` appended only when the microsecond
field is nonzero. -/
def isoCore (dt : NaiveDT) : String :=
  padZeros 4 dt.year ++ "-" ++ padZeros 2 dt.month ++ "-" ++ padZeros 2 dt.day
    ++ "T" ++ padZeros 2 dt.hour ++ ":" ++ padZeros 2 dt.minute ++ ":"
    ++ padZeros 2 dt.second
    ++ (if dt.microsecond == 0 then "" else "." ++ padZeros 6 dt.microsecond)

/-- Python's `datetime.isoformat()` on an aware datetime with wall time `dt`
and zone `z`. -/
def isoformatTz (dt : NaiveDT) (z : Zone) : String :=
  isoCore dt ++ offsetToString (zoneUtcOffsetMin z dt)

/-- Runtime kinds a Firestore document field value can take, mirroring the
`isinstance` cascade of `to_jsonable`: Firestore `DatetimeWithNanoseconds`
(a `datetime` subclass, stored with an optional zone), plain `datetime`,
Firestore `GeoPoint`, Python `list` and `dict`, numpy integer/floating/bool
wrappers, the plain JSON leaves, and a representative unrecognized kind
(`bytes`, which Firestore can store and the cascade does not handle). -/
inductive Value where
  | vstr (s : String)
  | vint (n : Int)
  | vfloat (q : Rat)
  | vbool (b : Bool)
  | vnull
  | vlist (xs : List Value)
  | vdict (kvs : List (String × Value))
  | tsNanos (dt : NaiveDT) (tz : Option Zone)
  | dtime (dt : NaiveDT) (tz : Option Zone)
  | geoPoint (lat lon : Rat)
  | npInt (n : Int)
  | npFloat (q : Rat)
  | npBool (b : Bool)
  | vbytes (bs : List Nat)
deriving Repr

/-- Embedding of `to_jsonable` (`main.py` lines 53–75), branch for branch:

  * `DatetimeWithNanoseconds` → `v.replace(tzinfo=LOCAL_TZ).isoformat()`;
    `replace` discards any zone the value carried and installs
    `America/Santiago` on the unchanged wall-clock fields;
  * `datetime` → if naive, `replace(tzinfo=LOCAL_TZ)` first; then
    `astimezone(LOCAL_TZ).isoformat()` (`astimezone` is the identity once the
    zone is already `LOCAL_TZ`);
  * `GeoPoint` → `{"latitude": v.latitude, "longitude": v.longitude}`;
  * `list` / `dict` → recursive normalization;
  * `np.integer` / `np.floating` / `np.bool_` → `int(v)` / `float(v)` /
    `bool(v)`;
  * anything else → returned unchanged. -/
def to_jsonable : Value → Value
  | .tsNanos dt _tz => .vstr (isoformatTz dt .santiago)
  | .dtime dt none => .vstr (isoformatTz dt .santiago)
  | .dtime dt (some z) => .vstr (isoformatTz (astimezoneSantiago dt z) .santiago)
  | .geoPoint lat lon => .vdict [("latitude", .vfloat lat), ("longitude", .vfloat lon)]
  | .vlist xs => .vlist (xs.attach.map (fun x => to_jsonable x.1))
  | .vdict kvs => .vdict (kvs.attach.map (fun kv => (kv.1.1, to_jsonable kv.1.2)))
  | .npInt n => .vint n
  | .npFloat q => .vfloat q
  | .npBool b => .vbool b
  | v => v
decreasing_by
  · have := List.sizeOf_lt_of_mem x.2
    simp only [Value.vlist.sizeOf_spec]
    omega
  · have h1 := List.sizeOf_lt_of_mem kv.2
    have h2 : sizeOf kv.1.2 < sizeOf kv.1 := by
      obtain ⟨a, b⟩ := kv.1
      simp only [Prod.mk.sizeOf_spec]
      omega
    simp only [Value.vdict.sizeOf_spec]
    omega

/-- A Firestore document snapshot: the store-assigned identifier (`doc.id`)
and the field data (`doc.to_dict()`, which is `None` for a nonexistent
document — hence the `Option`). -/
structure StoreDoc where
  id : String
  data : Option (List (String × Value))

/-- Keys of a Python dict, in insertion order. -/
def dictKeys (kvs : List (String × Value)) : List String :=
  kvs.map Prod.fst

/-- Python dict assignment `d[k] = v`: replace the value at the existing
position of `k` when present, else append the new pair at the end. -/
def pyDictSet : List (String × Value) → String → Value → List (String × Value)
  | [], k, v => [(k, v)]
  | kv :: tl, k, v => if kv.1 == k then (k, v) :: tl else kv :: pyDictSet tl k v

/-- Embedding of `doc_to_dict` (`main.py` lines 77–80):
`data = {k: to_jsonable(v) for k, v in (doc.to_dict() or {}).items()};
data["id"] = doc.id`. -/
def doc_to_dict (doc : StoreDoc) : List (String × Value) :=
  pyDictSet ((doc.data.getD []).map (fun kv => (kv.1, to_jsonable kv.2))) "id" (.vstr doc.id)

/-- Python's `campana_id.strip('"')`: remove every leading and every trailing
double-quote character. -/
def stripQuotes (s : String) : String :=
  ⟨((s.data.dropWhile (· == '"')).reverse.dropWhile (· == '"')).reverse⟩

/-- One entry of the static `COLLECTIONS` table: physical collection name and
equality-filter field. -/
structure CollCfg where
  name : String
  filter_field : String

/-- The static `COLLECTIONS` table of `main.py`. -/
def COLLECTIONS : List (String × CollCfg) :=
  [("campana", ⟨"campana", "campanaID"⟩), ("estacion", ⟨"Estacion", "campanaID"⟩)]

/-- The external Firestore database, abstracted as the list of document
snapshots each physical collection scan yields, in scan order. -/
abbrev Store := String → List StoreDoc

/-- Server-side evaluation of the equality filter
`.where(field, "==", <string value>)` on one document: the document matches
when its `field` equals the given string. -/
def matchesFilter (field cid : String) (d : StoreDoc) : Bool :=
  match (d.data.getD []).lookup field with
  | some (.vstr s) => s == cid
  | _ => false

/-- Embedding of `fetch_collection` (`main.py` lines 82–85): look up the
collection config (a missing key would raise `KeyError`, hence `none`), run
the equality-filtered scan with the quote-stripped campaign id, and convert
every returned document. -/
def fetch_collection (store : Store) (key campana_id : String) :
    Option (List (List (String × Value))) :=
  match COLLECTIONS.lookup key with
  | none => none
  | some cfg =>
      some (((store cfg.name).filter
        (matchesFilter cfg.filter_field (stripQuotes campana_id))).map doc_to_dict)

/-- Outcome of an endpoint call: a 200 JSON array, or an `HTTPException`
with status and detail (an unhandled exception surfaces as a generic 500
from the framework). -/
inductive HttpResult where
  | ok (body : List (List (String × Value)))
  | err (status : Nat) (detail : String)

/-- Embedding of the `GET /campana` handler (`main.py` lines 102–107):
`items = fetch_collection("campana", campana_id); if not items: raise
HTTPException(404, ...); return JSONResponse(items)`. -/
def get_campana (store : Store) (campana_id : String) : HttpResult :=
  match fetch_collection store "campana" campana_id with
  | none => .err 500 "Internal Server Error"
  | some items =>
      if items.isEmpty then
        .err 404 "Sin documentos en 'campana' para ese campana_id."
      else .ok items

/-- Embedding of the `GET /estacion` handler (`main.py` lines 109–114). -/
def get_estacion (store : Store) (campana_id : String) : HttpResult :=
  match fetch_collection store "estacion" campana_id with
  | none => .err 500 "Internal Server Error"
  | some items =>
      if items.isEmpty then
        .err 404 "Sin documentos en 'Estacion' para ese campana_id."
      else .ok items

/-- Reading of the timestamp rule as the specification states it for
`DatetimeWithNanoseconds` (reinterpret in the fixed zone when naive, else
convert to that zone preserving the instant), kept separate so it can be
compared with the embedded `to_jsonable`. -/
def tsNanosSpecNormalize (dt : NaiveDT) (tz : Option Zone) : Value :=
  match tz with
  | none => .vstr (isoformatTz dt .santiago)
  | some z => .vstr (isoformatTz (astimezoneSantiago dt z) .santiago)

/-- JSON-representability check over the value kinds: only strings, numbers,
booleans, null, and (recursively JSON) lists and string-keyed mappings. -/
def isJsonValue : Value → Bool
  | .vstr _ => true
  | .vint _ => true
  | .vfloat _ => true
  | .vbool _ => true
  | .vnull => true
  | .vlist xs => xs.attach.all (fun x => isJsonValue x.1)
  | .vdict kvs => kvs.attach.all (fun kv => isJsonValue kv.1.2)
  | _ => false
decreasing_by
  · have := List.sizeOf_lt_of_mem x.2
    simp only [Value.vlist.sizeOf_spec]
    omega
  · have h1 := List.sizeOf_lt_of_mem kv.2
    have h2 : sizeOf kv.1.2 < sizeOf kv.1 := by
      obtain ⟨a, b⟩ := kv.1
      simp only [Prod.mk.sizeOf_spec]
      omega
    simp only [Value.vdict.sizeOf_spec]
    omega

/-- Check that a value is built only from the kinds the normalizer
explicitly recognizes plus the plain JSON leaves — i.e. that no unrecognized
kind (`bytes`) occurs at any depth. -/
def recognizedLeaves : Value → Bool
  | .vbytes _ => false
  | .vlist xs => xs.attach.all (fun x => recognizedLeaves x.1)
  | .vdict kvs => kvs.attach.all (fun kv => recognizedLeaves kv.1.2)
  | _ => true
decreasing_by
  · have := List.sizeOf_lt_of_mem x.2
    simp only [Value.vlist.sizeOf_spec]
    omega
  · have h1 := List.sizeOf_lt_of_mem kv.2
    have h2 : sizeOf kv.1.2 < sizeOf kv.1 := by
      obtain ⟨a, b⟩ := kv.1
      simp only [Prod.mk.sizeOf_spec]
      omega
    simp only [Value.vdict.sizeOf_spec]
    omega

/-- Reading of the quote handling as the specification states it: remove
exactly one pair of enclosing double quotes, when both ends carry one. -/
def stripOnePairSpec (s : String) : String :=
  if s.data.head? = some '"' ∧ s.data.getLast? = some '"' ∧ 2 ≤ s.data.length
  then ⟨s.data.tail.dropLast⟩ else s

/-- The data-layer result of the `/campana` endpoint: matching documents of
the physical `campana` collection, normalized. -/
def campanaItems (store : Store) (cid : String) : List (List (String × Value)) :=
  ((store "campana").filter (matchesFilter "campanaID" (stripQuotes cid))).map doc_to_dict

/-- The data-layer result of the `/estacion` endpoint: matching documents of
the physical `Estacion` collection, normalized. -/
def estacionItems (store : Store) (cid : String) : List (List (String × Value)) :=
  ((store "Estacion").filter (matchesFilter "campanaID" (stripQuotes cid))).map doc_to_dict

/-- Whether a response is a 200 whose body is the empty array. -/
def isOkEmpty : HttpResult → Bool
  | .ok [] => true
  | _ => false

/-- Reading of `doc_to_dict` as the specification states it: same keys plus
`"id"`, every source field normalized, and `"id"` bound to the
store-assigned identifier. -/
def c7ClaimSpec (d : StoreDoc) : Prop :=
  (∀ kv ∈ d.data.getD [], (doc_to_dict d).lookup kv.1 = some (to_jsonable kv.2))
  ∧ (doc_to_dict d).lookup "id" = some (.vstr d.id)
  ∧ ∀ k : String, k ∈ dictKeys (doc_to_dict d) ↔ (k ∈ dictKeys (d.data.getD []) ∨ k = "id")

/-- Unfolding of `to_jsonable` on a list, with the membership bookkeeping of
the termination argument removed. -/
theorem to_jsonable_vlist (xs : List Value) :
    to_jsonable (.vlist xs) = .vlist (xs.map to_jsonable) := by
  rw [to_jsonable]
  simp [List.attach, List.attachWith, List.map_pmap, List.pmap_eq_map]

/-- Unfolding of `to_jsonable` on a mapping, with the membership bookkeeping
of the termination argument removed. -/
theorem to_jsonable_vdict (kvs : List (String × Value)) :
    to_jsonable (.vdict kvs) = .vdict (kvs.map (fun kv => (kv.1, to_jsonable kv.2))) := by
  rw [to_jsonable]
  simp [List.attach, List.attachWith, List.map_pmap, List.pmap_eq_map]

/-- Unfolding of `isJsonValue` on a list. -/
theorem isJsonValue_vlist (xs : List Value) :
    isJsonValue (.vlist xs) = xs.all isJsonValue := by
  rw [isJsonValue, Bool.eq_iff_iff]
  simp [List.all_eq_true]

/-- Unfolding of `isJsonValue` on a mapping. -/
theorem isJsonValue_vdict (kvs : List (String × Value)) :
    isJsonValue (.vdict kvs) = kvs.all (fun kv => isJsonValue kv.2) := by
  rw [isJsonValue, Bool.eq_iff_iff]
  simp [List.all_eq_true]

/-- Unfolding of `recognizedLeaves` on a list. -/
theorem recognizedLeaves_vlist (xs : List Value) :
    recognizedLeaves (.vlist xs) = xs.all recognizedLeaves := by
  rw [recognizedLeaves, Bool.eq_iff_iff]
  simp [List.all_eq_true]

/-- Unfolding of `recognizedLeaves` on a mapping. -/
theorem recognizedLeaves_vdict (kvs : List (String × Value)) :
    recognizedLeaves (.vdict kvs) = kvs.all (fun kv => recognizedLeaves kv.2) := by
  rw [recognizedLeaves, Bool.eq_iff_iff]
  simp [List.all_eq_true]

/-- Every character list is a block of leading double quotes followed by its
`dropWhile` remainder. -/
theorem dropQuotesDecompose (l : List Char) :
    ∃ a, l = List.replicate a '"' ++ l.dropWhile (· == '"') := by
  induction l with
  | nil => exact ⟨0, rfl⟩
  | cons c t ih =>
      by_cases hc : c = '"'
      · subst hc
        obtain ⟨a, ha⟩ := ih
        refine ⟨a + 1, ?_⟩
        rw [List.dropWhile_cons]
        simpa [List.replicate_succ] using ha
      · refine ⟨0, ?_⟩
        rw [List.dropWhile_cons]
        simp [hc]

/-- After dropping leading double quotes, the head is not a double quote. -/
theorem headDropQuotes (l : List Char) :
    ((l.dropWhile (· == '"')).head? == some '"') = false := by
  induction l with
  | nil => rfl
  | cons c t ih =>
      rw [List.dropWhile_cons]
      by_cases hc : c = '"'
      · simpa [hc] using ih
      · simp [hc]

/-- Looking up the assigned key after a Python dict assignment yields the
assigned value. -/
theorem lookup_pyDictSet_self (l : List (String × Value)) (k : String) (v : Value) :
    (pyDictSet l k v).lookup k = some v := by
  induction l with
  | nil => simp [pyDictSet, List.lookup]
  | cons kv tl ih =>
      obtain ⟨a, b⟩ := kv
      by_cases h : a = k
      · simp [pyDictSet, h, List.lookup]
      · have h2 : (a == k) = false := by simpa using h
        have h3 : (k == a) = false := by simpa using Ne.symm h
        simp [pyDictSet, h2, List.lookup, h3, ih]

/-- A Python dict assignment leaves lookups of other keys unchanged. -/
theorem lookup_pyDictSet_ne (l : List (String × Value)) (k : String) (v : Value)
    (kq : String) (h : kq ≠ k) :
    (pyDictSet l k v).lookup kq = l.lookup kq := by
  have h0 : (kq == k) = false := by simpa using h
  induction l with
  | nil => simp [pyDictSet, List.lookup, h0]
  | cons kv tl ih =>
      obtain ⟨a, b⟩ := kv
      by_cases ha : a = k
      · subst ha
        have h2 : (kq == a) = false := by simpa using h
        simp [pyDictSet, List.lookup, h2]
      · have h2 : (a == k) = false := by simpa using ha
        by_cases hq : kq = a
        · subst hq
          simp [pyDictSet, h2, List.lookup]
        · have h3 : (kq == a) = false := by simpa using hq
          simp [pyDictSet, h2, List.lookup, h3, ih]

/-- Key membership after a Python dict assignment: the old keys plus the
assigned one. -/
theorem mem_dictKeys_pyDictSet (l : List (String × Value)) (k : String) (v : Value)
    (kq : String) :
    kq ∈ dictKeys (pyDictSet l k v) ↔ (kq ∈ dictKeys l ∨ kq = k) := by
  induction l with
  | nil => simp [pyDictSet, dictKeys]
  | cons kv tl ih =>
      obtain ⟨a, b⟩ := kv
      by_cases ha : a = k
      · subst ha
        simp [pyDictSet, dictKeys]
        tauto
      · have h2 : (a == k) = false := by simpa using ha
        simp [pyDictSet, h2, dictKeys] at ih ⊢
        tauto

/-- On an association list with pairwise-distinct keys, membership fixes the
lookup result. -/
theorem lookup_of_mem_nodupKeys (l : List (String × Value))
    (hnd : (dictKeys l).Nodup) (k : String) (v : Value) (hm : (k, v) ∈ l) :
    l.lookup k = some v := by
  induction l with
  | nil => cases hm
  | cons kv tl ih =>
      obtain ⟨a, b⟩ := kv
      have hnd2 : (a :: dictKeys tl).Nodup := by simpa [dictKeys] using hnd
      obtain ⟨hna, hndtl⟩ := List.nodup_cons.mp hnd2
      rcases List.mem_cons.mp hm with heq | htl
      · injection heq with h1 h2
        subst h1
        subst h2
        simp [List.lookup]
      · have hmem : k ∈ dictKeys tl := by
          simpa [dictKeys] using List.mem_map_of_mem Prod.fst htl
        have hka : k ≠ a := fun hh => hna (hh ▸ hmem)
        have h3 : (k == a) = false := by simpa using hka
        simp [List.lookup, h3]
        exact ih hndtl htl

/-- Lookup commutes with normalizing every value of an association list. -/
theorem lookup_map_norm (l : List (String × Value)) (k : String) :
    (l.map (fun kv => (kv.1, to_jsonable kv.2))).lookup k
      = (l.lookup k).map to_jsonable := by
  induction l with
  | nil => simp [List.lookup]
  | cons kv tl ih =>
      obtain ⟨a, b⟩ := kv
      by_cases h : k = a
      · simp [List.lookup, h]
      · have h2 : (k == a) = false := by simpa using h
        simp [List.lookup, h2, ih]

/-- Normalizing every value of an association list keeps its keys. -/
theorem dictKeys_map_norm (l : List (String × Value)) :
    dictKeys (l.map (fun kv => (kv.1, to_jsonable kv.2))) = dictKeys l := by
  simp [dictKeys, List.map_map, Function.comp]

/-- C1, counterexample: a `DatetimeWithNanoseconds` carrying the UTC zone at
2024-01-15 12:00:00+00:00 is emitted by `to_jsonable` with its wall clock
unchanged (`2024-01-15T12:00:00-03:00`), while converting to
`America/Santiago` preserving the instant would give
`2024-01-15T09:00:00-03:00`; the two disagree. -/
theorem c1_counterexample :
    to_jsonable (.tsNanos ⟨2024, 1, 15, 12, 0, 0, 0⟩ (some .utc))
        = .vstr "2024-01-15T12:00:00-03:00"
    ∧ tsNanosSpecNormalize ⟨2024, 1, 15, 12, 0, 0, 0⟩ (some .utc)
        = .vstr "2024-01-15T09:00:00-03:00"
    ∧ to_jsonable (.tsNanos ⟨2024, 1, 15, 12, 0, 0, 0⟩ (some .utc))
        ≠ tsNanosSpecNormalize ⟨2024, 1, 15, 12, 0, 0, 0⟩ (some .utc) := by
  refine ⟨?_, ?_, ?_⟩
  · simp only [to_jsonable]
    simp only [Value.vstr.injEq]
    decide
  · simp only [tsNanosSpecNormalize]
    simp only [Value.vstr.injEq]
    decide
  · simp only [to_jsonable, tsNanosSpecNormalize]
    simp only [ne_eq, Value.vstr.injEq]
    decide

/-- C1, amended: for every `DatetimeWithNanoseconds` value, zoned or not,
`to_jsonable` replaces the zone by `America/Santiago` on the unchanged
wall-clock fields (`v.replace(tzinfo=LOCAL_TZ)`) — it reinterprets rather
than converts — and emits the ISO-8601 string with that zone's offset. -/
theorem c1_tsnanos_zone_replaced (dt : NaiveDT) (tz : Option Zone) :
    to_jsonable (.tsNanos dt tz) = .vstr (isoformatTz dt .santiago) := by
  simp [to_jsonable]

/-- C2, counterexample: an unrecognized kind (`bytes`) passes through
`to_jsonable` unchanged, so the output is not JSON-representable. -/
theorem c2_counterexample :
    isJsonValue (to_jsonable (.vbytes [0])) = false := by
  simp [to_jsonable, isJsonValue]

/-- C2, amended: for every value built only from the kinds the normalizer
recognizes (JSON leaves, lists, mappings, timestamps, geo-points, numpy
numerics — no unrecognized kind at any depth), the output of `to_jsonable`
contains only JSON-representable values at every depth. -/
theorem c2_recognized_normalizes_to_json (v : Value)
    (h : recognizedLeaves v = true) : isJsonValue (to_jsonable v) = true := by
  induction v using to_jsonable.induct with
  | case1 dt tz => simp [to_jsonable, isJsonValue]
  | case2 dt => simp [to_jsonable, isJsonValue]
  | case3 dt z => simp [to_jsonable, isJsonValue]
  | case4 lat lon => simp [to_jsonable, isJsonValue_vdict, isJsonValue]
  | case5 xs ih =>
      rw [to_jsonable_vlist, isJsonValue_vlist, List.all_eq_true]
      rw [recognizedLeaves_vlist, List.all_eq_true] at h
      intro b hb
      rw [List.mem_map] at hb
      obtain ⟨y, hy, rfl⟩ := hb
      exact ih ⟨y, hy⟩ (h y hy)
  | case6 kvs ih =>
      rw [to_jsonable_vdict, isJsonValue_vdict, List.all_eq_true]
      rw [recognizedLeaves_vdict, List.all_eq_true] at h
      intro kv hkv
      rw [List.mem_map] at hkv
      obtain ⟨y, hy, rfl⟩ := hkv
      exact ih ⟨y, hy⟩ (h y hy)
  | case7 n => simp [to_jsonable, isJsonValue]
  | case8 q => simp [to_jsonable, isJsonValue]
  | case9 b => simp [to_jsonable, isJsonValue]
  | case10 v h1 h2 h3 h4 h5 h6 h7 h8 h9 =>
      cases v <;> try simp_all [to_jsonable, isJsonValue, recognizedLeaves]
      rename_i dt tz
      cases tz with
      | none => exact absurd rfl h2
      | some z => exact absurd rfl (h3 dt z rfl)

/-- C2, witness: a concrete nested recognized-only value satisfies the
hypothesis and normalizes to JSON-only output. -/
theorem c2_witness :
    recognizedLeaves
        (.vlist [.vstr "a", .tsNanos ⟨2024, 1, 15, 12, 0, 0, 0⟩ none,
          .vdict [("g", .geoPoint 1 2)]]) = true
    ∧ isJsonValue
        (to_jsonable
          (.vlist [.vstr "a", .tsNanos ⟨2024, 1, 15, 12, 0, 0, 0⟩ none,
            .vdict [("g", .geoPoint 1 2)]])) = true := by
  constructor
  · simp [recognizedLeaves_vlist, recognizedLeaves_vdict, recognizedLeaves]
  · exact c2_recognized_normalizes_to_json _
      (by simp [recognizedLeaves_vlist, recognizedLeaves_vdict, recognizedLeaves])

/-- C3, counterexample: on the doubly-quoted input `""abc""`, the code's
`strip` removes all four quotes, whereas removing exactly one enclosing pair
would leave `"abc"`; the two disagree. -/
theorem c3_counterexample :
    stripQuotes "\"\"abc\"\"" = "abc"
    ∧ stripOnePairSpec "\"\"abc\"\"" = "\"abc\""
    ∧ stripQuotes "\"\"abc\"\"" ≠ stripOnePairSpec "\"\"abc\"\"" := by
  refine ⟨by decide, by decide, by decide⟩

/-- C3, amended: `fetch_collection` strips every leading and trailing
double-quote character from the caller-supplied campaign id (Python's
`strip('"')`): the input decomposes as leading quotes, the used filter value
(which neither starts nor ends with a quote), and trailing quotes; in
particular the inputs `"abc"` and `abc` query the same filter value. -/
theorem c3_strip_all_edge_quotes :
    (∀ s : String, ∃ a b : Nat,
        s.data = List.replicate a '"' ++ (stripQuotes s).data ++ List.replicate b '"'
        ∧ (((stripQuotes s).data.head? == some '"') = false)
        ∧ (((stripQuotes s).data.getLast? == some '"') = false))
    ∧ (∀ (store : Store) (key : String),
        fetch_collection store key "\"abc\"" = fetch_collection store key "abc") := by
  constructor
  · intro s
    obtain ⟨a, ha⟩ := dropQuotesDecompose s.data
    obtain ⟨b, hb⟩ := dropQuotesDecompose (s.data.dropWhile (· == '"')).reverse
    have hdata : (stripQuotes s).data
        = ((s.data.dropWhile (· == '"')).reverse.dropWhile (· == '"')).reverse := rfl
    have hrev : (stripQuotes s).data.reverse
        = (s.data.dropWhile (· == '"')).reverse.dropWhile (· == '"') := by
      rw [hdata, List.reverse_reverse]
    have ht : s.data.dropWhile (· == '"') = (stripQuotes s).data ++ List.replicate b '"' := by
      have := congrArg List.reverse hb
      rw [List.reverse_reverse, List.reverse_append, List.reverse_replicate, ← hrev,
        List.reverse_reverse] at this
      exact this
    refine ⟨a, b, ?_, ?_, ?_⟩
    · rw [ha, ht, List.append_assoc]
    · cases hr : (stripQuotes s).data with
      | nil => rfl
      | cons c rt =>
          have h1 := headDropQuotes s.data
          rw [ht, hr] at h1
          simpa using h1
    · have h2 := headDropQuotes (s.data.dropWhile (· == '"')).reverse
      rw [← hrev, List.head?_reverse] at h2
      exact h2
  · intro store key
    have h : stripQuotes "\"abc\"" = stripQuotes "abc" := by decide
    simp only [fetch_collection, h]

/-- C4: for every store state and campaign id, `GET /campana` and
`GET /estacion` answer 404 with the descriptive detail exactly when the
equality-filtered, normalized result list is empty, answer 200 with that
list otherwise, and never answer 200 with an empty array. -/
theorem c4_empty_is_404_never_empty_ok (store : Store) (cid : String) :
    (get_campana store cid
      = if (campanaItems store cid).isEmpty
        then .err 404 "Sin documentos en 'campana' para ese campana_id."
        else .ok (campanaItems store cid))
    ∧ isOkEmpty (get_campana store cid) = false
    ∧ (get_estacion store cid
      = if (estacionItems store cid).isEmpty
        then .err 404 "Sin documentos en 'Estacion' para ese campana_id."
        else .ok (estacionItems store cid))
    ∧ isOkEmpty (get_estacion store cid) = false := by
  have hc : fetch_collection store "campana" cid = some (campanaItems store cid) := by
    simp [fetch_collection, COLLECTIONS, campanaItems, List.lookup]
  have he : fetch_collection store "estacion" cid = some (estacionItems store cid) := by
    simp [fetch_collection, COLLECTIONS, estacionItems, List.lookup]
  refine ⟨?_, ?_, ?_, ?_⟩
  · simp only [get_campana, hc]
  · simp only [get_campana, hc]
    cases campanaItems store cid with
    | nil => simp [isOkEmpty]
    | cons x xs => simp [isOkEmpty]
  · simp only [get_estacion, he]
  · simp only [get_estacion, he]
    cases estacionItems store cid with
    | nil => simp [isOkEmpty]
    | cons x xs => simp [isOkEmpty]

/-- C5: the normalizer is idempotent on every value, of arbitrary nesting
depth: `to_jsonable (to_jsonable v) = to_jsonable v`. -/
theorem c5_to_jsonable_idempotent (v : Value) :
    to_jsonable (to_jsonable v) = to_jsonable v := by
  induction v using to_jsonable.induct with
  | case1 dt tz => simp [to_jsonable]
  | case2 dt => simp [to_jsonable]
  | case3 dt z => simp [to_jsonable]
  | case4 lat lon => simp [to_jsonable, to_jsonable_vdict]
  | case5 xs ih =>
      rw [to_jsonable_vlist]
      rw [to_jsonable_vlist]
      rw [List.map_map]
      congr 1
      apply List.map_congr_left
      intro x hx
      exact ih ⟨x, hx⟩
  | case6 kvs ih =>
      rw [to_jsonable_vdict]
      rw [to_jsonable_vdict]
      rw [List.map_map]
      congr 1
      apply List.map_congr_left
      intro kv hkv
      exact congrArg _ (ih ⟨kv, hkv⟩)
  | case7 n => simp [to_jsonable]
  | case8 q => simp [to_jsonable]
  | case9 b => simp [to_jsonable]
  | case10 v h1 h2 h3 h4 h5 h6 h7 h8 h9 =>
      cases v <;> simp_all [to_jsonable]

/-- C6: every zone-less timestamp input — Firestore-native or plain
`datetime` — is emitted by `to_jsonable` as the `isoformat` string of its
wall clock in `America/Santiago`; that string carries the Santiago offset as
its suffix, which is `-03:00` or `-04:00`. -/
theorem c6_naive_timestamp_santiago_offset (dt : NaiveDT) :
    to_jsonable (.tsNanos dt none) = .vstr (isoformatTz dt .santiago)
    ∧ to_jsonable (.dtime dt none) = .vstr (isoformatTz dt .santiago)
    ∧ (∃ core : String,
        isoformatTz dt .santiago = core ++ offsetToString (zoneUtcOffsetMin .santiago dt))
    ∧ (offsetToString (zoneUtcOffsetMin .santiago dt) = "-03:00"
        ∨ offsetToString (zoneUtcOffsetMin .santiago dt) = "-04:00") := by
  refine ⟨by simp [to_jsonable], by simp [to_jsonable], ⟨isoCore dt, rfl⟩, ?_⟩
  by_cases h : santiagoIsDSTlocal dt
  · left
    simp only [zoneUtcOffsetMin, h, if_true]
    decide
  · right
    simp only [zoneUtcOffsetMin, h, if_false]
    decide

/-- C7, counterexample: on a document whose data already contains a field
named `id`, the assignment `data["id"] = doc.id` overwrites the normalized
field value, so the result does not bind every source field to its
normalized value. -/
theorem c7_counterexample : ¬ c7ClaimSpec ⟨"d1", some [("id", .vint 5)]⟩ := by
  intro h
  have h1 := h.1 ("id", .vint 5) (by simp)
  simp [doc_to_dict, pyDictSet, List.lookup, to_jsonable] at h1

/-- C7, amended: for every document with pairwise-distinct field names, the
converted mapping binds every source field other than one named `id` to its
normalized value, binds `id` to the store-assigned identifier, and its key
set is the source keys plus `id`. -/
theorem c7_doc_keys_and_values (d : StoreDoc)
    (hnd : (dictKeys (d.data.getD [])).Nodup) :
    (∀ kv ∈ d.data.getD [], kv.1 ≠ "id" →
        (doc_to_dict d).lookup kv.1 = some (to_jsonable kv.2))
    ∧ (doc_to_dict d).lookup "id" = some (.vstr d.id)
    ∧ ∀ k : String, k ∈ dictKeys (doc_to_dict d)
        ↔ (k ∈ dictKeys (d.data.getD []) ∨ k = "id") := by
  refine ⟨?_, ?_, ?_⟩
  · intro kv hm hne
    obtain ⟨k0, v0⟩ := kv
    rw [doc_to_dict, lookup_pyDictSet_ne _ _ _ _ hne, lookup_map_norm,
      lookup_of_mem_nodupKeys _ hnd _ _ hm]
    rfl
  · rw [doc_to_dict, lookup_pyDictSet_self]
  · intro k
    rw [doc_to_dict, mem_dictKeys_pyDictSet, dictKeys_map_norm]

/-- C7, witness: a concrete one-field document satisfies the hypothesis; its
field keeps its normalized value and `id` holds the identifier. -/
theorem c7_witness :
    (doc_to_dict ⟨"doc1", some [("nombre", .vstr "Test")]⟩).lookup "nombre"
        = some (.vstr "Test")
    ∧ (doc_to_dict ⟨"doc1", some [("nombre", .vstr "Test")]⟩).lookup "id"
        = some (.vstr "doc1") := by
  have h := c7_doc_keys_and_values ⟨"doc1", some [("nombre", .vstr "Test")]⟩
    (by simp [dictKeys])
  refine ⟨?_, h.2.1⟩
  have h1 := h.1 ("nombre", .vstr "Test") (by simp) (by decide)
  simpa [to_jsonable] using h1

/-- C8: `to_jsonable` is total with a pass-through default — every input
whose runtime kind is not one of the explicitly recognized kinds (strings,
plain numbers, booleans, `None`, and unrecognized kinds such as `bytes`) is
returned unchanged. -/
theorem c8_passthrough (s : String) (n : Int) (q : Rat) (b : Bool) (bs : List Nat) :
    to_jsonable (.vstr s) = .vstr s
    ∧ to_jsonable (.vint n) = .vint n
    ∧ to_jsonable (.vfloat q) = .vfloat q
    ∧ to_jsonable (.vbool b) = .vbool b
    ∧ to_jsonable .vnull = .vnull
    ∧ to_jsonable (.vbytes bs) = .vbytes bs := by
  refine ⟨?_, ?_, ?_, ?_, ?_, ?_⟩ <;> simp [to_jsonable]

/-- C9: every geo-point normalizes to exactly the two-key mapping
`latitude`/`longitude`, in that order, with no extra keys. -/
theorem c9_geopoint_exact (lat lon : Rat) :
    to_jsonable (.geoPoint lat lon)
        = .vdict [("latitude", .vfloat lat), ("longitude", .vfloat lon)]
    ∧ dictKeys [(("latitude" : String), Value.vfloat lat), ("longitude", .vfloat lon)]
        = ["latitude", "longitude"] := by
  exact ⟨by simp [to_jsonable], by simp [dictKeys]⟩

/-- C10: a document whose stored data is absent (`to_dict()` returns `None`)
or empty converts to the one-key mapping binding `id` to the store-assigned
identifier. -/
theorem c10_empty_doc (d : StoreDoc) (h : d.data = none ∨ d.data = some []) :
    doc_to_dict d = [("id", .vstr d.id)] := by
  rcases h with h | h <;> simp [doc_to_dict, h, pyDictSet]

/-- C10, witness: the conversion of a concrete absent-data document. -/
theorem c10_witness :
    doc_to_dict ⟨"d7", none⟩ = [("id", .vstr "d7")] :=
  c10_empty_doc ⟨"d7", none⟩ (Or.inl rfl)
